import Mathlib

/-!
Verification development for the UniVSE repository, which consists of two
experiment scripts: `experiments/finetune_snli_ve.py` (fine-tune a classifier
head for SNLI-VE on precomputed embeddings) and `experiments/precomp_vsts_emb.py`
(precompute paired multimodal embeddings of the vSTS dataset).

The scripts are shallowly embedded below.  Tensors are modelled as lists of
rows of rationals, Python attribute lookup on an `argparse` namespace is
modelled as an association-list lookup that can fail with an `AttributeError`,
and the opaque framework pieces (neural network forward passes, the optimizer
step, the loss criterion) are parameters of the embedding.  Each `main`
function is modelled as a pure function that returns the ordered list of
observable events (data loading, model loading, loop iterations, file writes)
together with either its result or the exception that terminated it.
-/

/-- A 2-D tensor: a list of rows of rationals.  Models a torch tensor or a
numpy array as produced by `tensor.data.cpu().numpy()`. -/
abbrev Mat := List (List ℚ)

/-- Row `0` of a matrix, i.e. Python's `arr[0]` on the first axis (the batch
axis); defaults to the empty row when the matrix has no rows. -/
def row0 (m : Mat) : List ℚ := m.headD []

/-- Does the character list start with the given pattern list? -/
def startsWithL : List Char → List Char → Bool
  | _, [] => true
  | [], _ :: _ => false
  | a :: as, b :: bs => (a == b) && startsWithL as bs

/-- Substring containment on character lists: does the second list contain the
first one as a contiguous sublist? -/
def containsLC (n : List Char) : List Char → Bool
  | [] => startsWithL [] n
  | a :: t => startsWithL (a :: t) n || containsLC n t

/-- Python's `needle in hay` test on strings: substring containment. -/
def substrIn (needle hay : String) : Bool := containsLC needle.data hay.data

/-! ### Embedding of `experiments/precomp_vsts_emb.py` -/

/-- The `choices` list of the `--modality` option of `precomp_vsts_emb.parse_args`
(line 31); `argparse` rejects every other modality string. -/
def validModalities : List String := ["img", "sent", "cap", "comp", "sent+img", "cap+img", "comp+img"]

/-- The `choices` list of the `--model` option of `precomp_vsts_emb.parse_args`
(line 23). -/
def validModels : List String := ["vse++", "univse", "simp_univse"]

/-- Modality rewriting of `precomp_vsts_emb.main` (lines 75-89): the first block
replaces a `"cap"` modality by the corresponding `"sent"` modality for models
other than `"univse"`; the second block tests `"comp" in args.modality` twice
(the inner test repeats the outer one verbatim), so its `else` arm is dead. -/
def rewriteModality (model modality : String) : String :=
  let m1 :=
    if substrIn "cap" modality && !(model == "univse") then
      (if substrIn "img" modality then "sent+img" else "sent")
    else modality
  if substrIn "comp" m1 && !(model == "univse") then
    (if substrIn "comp" m1 then "comp+img" else "comp")
  else m1

/-- Concatenation of two matrices along dimension 1 (each row of the first is
followed by the matching row of the second), as `torch.cat((a, b), dim=1)`. -/
def catDim1 (a b : Mat) : Mat := List.zipWith (fun r s => r ++ s) a b

/-- The dictionary of embeddings returned by one forward pass of the UniVSE
model; field names follow the keys used in `precomp_vsts_emb.main`. -/
structure EmbDict where
  img_emb : Mat
  cap_emb : Mat
  sent_emb : Mat
  comp_emb : Mat

/-- Loop-body branch of `precomp_vsts_emb.main` (lines 127-147): select the
pair of current embeddings from the two embedding dictionaries of an instance
according to the modality string.  The final `else` arm is the source's
trailing `else: # if args.modality == "comp+img"`. -/
def branchEmbs (modality : String) (e1 e2 : EmbDict) : Mat × Mat :=
  if modality = "img" then (e1.img_emb, e2.img_emb)
  else if modality = "cap" then (e1.cap_emb, e2.cap_emb)
  else if modality = "sent" then (e1.sent_emb, e2.sent_emb)
  else if modality = "comp" then (e1.comp_emb, e2.comp_emb)
  else if modality = "cap+img" then
    (catDim1 e1.cap_emb e1.img_emb, catDim1 e2.cap_emb e2.img_emb)
  else if modality = "sent+img" then
    (catDim1 e1.sent_emb e1.img_emb, catDim1 e2.sent_emb e2.img_emb)
  else
    (catDim1 e1.comp_emb e1.img_emb, catDim1 e2.comp_emb e2.img_emb)

/-- Selector following the specification's wording for claim C3, to be compared
with the source's `branchEmbs`: for a plain modality the model's single
embedding of that name, and for a `"+img"` modality the concatenation along
dimension 1 of the named embedding followed by the image embedding. -/
def selectEmbSpec (modality : String) (e : EmbDict) : Mat :=
  if modality = "img" then e.img_emb
  else if modality = "cap" then e.cap_emb
  else if modality = "sent" then e.sent_emb
  else if modality = "comp" then e.comp_emb
  else if modality = "cap+img" then catDim1 e.cap_emb e.img_emb
  else if modality = "sent+img" then catDim1 e.sent_emb e.img_emb
  else if modality = "comp+img" then catDim1 e.comp_emb e.img_emb
  else []

/-- One row of the vSTS dataset: a pair of (image, sentence) items together
with their human similarity score. -/
structure Inst (Img Sent : Type) where
  img1 : Img
  sent1 : Sent
  img2 : Img
  sent2 : Sent
  sim : ℚ

/-- A collated batch, as unpacked by `img_1, sent_1, img_2, sent_2, sim = batch`
in `precomp_vsts_emb.main` (line 122): five parallel lists, one entry per
instance of the batch. -/
structure Batch (Img Sent : Type) where
  img1 : List Img
  sent1 : List Sent
  img2 : List Img
  sent2 : List Sent
  sim : List ℚ

/-- Default collation of a chunk of dataset instances into a batch. -/
def collate {Img Sent : Type} (c : List (Inst Img Sent)) : Batch Img Sent :=
  ⟨c.map (fun i => i.img1), c.map (fun i => i.sent1),
   c.map (fun i => i.img2), c.map (fun i => i.sent2), c.map (fun i => i.sim)⟩

/-- Split a list into consecutive chunks of size `bs` (the last chunk may be
smaller); the batching performed by `torch.utils.data.DataLoader`. -/
def chunkList {α : Type} (bs : ℕ) : List α → List (List α)
  | [] => []
  | x :: xs =>
    if bs = 0 then []
    else (x :: xs).take bs :: chunkList bs (xs.drop (bs - 1))
termination_by l => l.length
decreasing_by
  simp only [List.length_drop, List.length_cons]
  omega

/-- A `DataLoader` with `shuffle: False` yields the dataset in order, split
into batches of the requested size. -/
def dataLoaderNoShuffle {α : Type} (bs : ℕ) (l : List α) : List (List α) :=
  chunkList bs l

/-- The instance loop of `precomp_vsts_emb.main` (lines 117-151): for every
batch, run the model on both (image, sentence) members, select the pair of
embeddings for the requested modality, and append row `0` of each selected
embedding (resp. entry `0` of the similarity tensor) to the accumulators
`embs1`, `embs2` and `sims`. -/
def precompLoop {Img Sent : Type} (modelFn : List Img → List Sent → EmbDict)
    (modality : String) : List (Batch Img Sent) → Mat × Mat × List ℚ → Mat × Mat × List ℚ
  | [], acc => acc
  | b :: rest, acc =>
    let e1 := modelFn b.img1 b.sent1
    let e2 := modelFn b.img2 b.sent2
    let p := branchEmbs modality e1 e2
    precompLoop modelFn modality rest
      (acc.1 ++ [row0 p.1], acc.2.1 ++ [row0 p.2], acc.2.2 ++ [b.sim.headD 0])

/-- Observable events of a run of `precomp_vsts_emb.main`, in program order. -/
inductive PreEv where
  | parseArgs
  | loadData
  | loadModel (name : String)
  | inst (i : ℕ)
  | mkdirOut
  | write (path : String)
deriving DecidableEq

/-- The file paths written by a trace of `precomp_vsts_emb.main`. -/
def writePaths (tr : List PreEv) : List String :=
  tr.filterMap (fun e => match e with | PreEv.write p => some p | _ => Option.none)

/-- Command-line arguments of `precomp_vsts_emb.py` after `argparse` parsing. -/
structure PreArgs where
  model : String
  modality : String
  data_path : String
  model_path : String
  graph_path : String
  output_path : String
  vocab_path : String

/-- Shallow embedding of `precomp_vsts_emb.main` (lines 66-168).  The dataset,
the model's forward function and the prior existence of the output directory
are parameters; the result is the ordered event trace together with either the
computed `(embs1, embs2, sims)` arrays or the raised exception.  The
`"vse++"` branch raises `NotImplementedError` (line 93); the unreachable
unknown-model branch (line 102, excluded by the `argparse` choices) returns
without producing outputs and is modelled as an error. -/
def mainPre {Img Sent : Type} (args : PreArgs) (ds : List (Inst Img Sent))
    (modelFn : List Img → List Sent → EmbDict) (outDirExists : Bool) :
    List PreEv × Except String (Mat × Mat × List ℚ) :=
  let m2 := rewriteModality args.model args.modality
  if args.model = "vse++" then
    ([PreEv.parseArgs, PreEv.loadData], Except.error "NotImplementedError")
  else if args.model = "simp_univse" ∨ args.model = "univse" then
    let batches := (dataLoaderNoShuffle 1 ds).map collate
    let out := precompLoop modelFn m2 batches ([], [], [])
    let f1 := args.output_path ++ "/" ++ args.model ++ "_" ++ m2 ++ "_emb_1.npy"
    let f2 := args.output_path ++ "/" ++ args.model ++ "_" ++ m2 ++ "_emb_2.npy"
    let f3 := args.output_path ++ "/sim.npy"
    ([PreEv.parseArgs, PreEv.loadData, PreEv.loadModel args.model]
       ++ (List.range batches.length).map PreEv.inst
       ++ (if outDirExists then [] else [PreEv.mkdirOut])
       ++ [PreEv.write f1, PreEv.write f2, PreEv.write f3],
     Except.ok out)
  else
    ([PreEv.parseArgs, PreEv.loadData], Except.error "ERROR: model name unknown.")

/-! ### Embedding of `experiments/finetune_snli_ve.py` -/

/-- A Python value stored in an `argparse` namespace. -/
inductive PyVal where
  | bool (b : Bool)
  | int (i : ℤ)
  | float (q : ℚ)
  | str (s : String)
  | pynone
deriving DecidableEq

/-- Truthiness cast used where the script needs a boolean flag; `argparse`
guarantees the flag attributes are booleans. -/
def PyVal.toBoolD : PyVal → Bool
  | PyVal.bool b => b
  | _ => false

/-- Natural-number cast used where the script needs a count; `argparse`
guarantees `--epochs` is an int. -/
def PyVal.toNatD : PyVal → ℕ
  | PyVal.int i => i.toNat
  | _ => 0

/-- String cast used where the script needs a path; `argparse` guarantees the
path attributes are strings. -/
def PyVal.strD : PyVal → String
  | PyVal.str s => s
  | _ => ""

/-- An `argparse.Namespace`: an association list from attribute names to
values. -/
abbrev PyNamespace := List (String × PyVal)

/-- Attribute lookup on a namespace. -/
def nsLookup : PyNamespace → String → Option PyVal
  | [], _ => Option.none
  | (k, v) :: rest, n => if n = k then some v else nsLookup rest n

/-- Python's `args.name`: returns the stored value, or raises `AttributeError`
when the namespace has no attribute of that name. -/
def pyGetattr (ns : PyNamespace) (name : String) : Except String PyVal :=
  match nsLookup ns name with
  | some v => Except.ok v
  | Option.none => Except.error ("AttributeError: " ++ name)

/-- The namespace produced by `finetune_snli_ve.parse_args` (lines 19-105):
exactly the attributes registered by its `add_argument` calls, with dashes
replaced by underscores.  Note that no `sim_file` attribute exists. -/
def parseArgsFt (plotFlag evalFlag : Bool) (epochs : ℤ) (lr : ℚ)
    (batchSize inputSize hiddenSize : ℤ) (momentum weightDecay dropout : ℚ)
    (batchNorm : Bool) (embFile labelFile outputPath : String) : PyNamespace :=
  [("plot", PyVal.bool plotFlag), ("eval", PyVal.bool evalFlag),
   ("epochs", PyVal.int epochs), ("lr", PyVal.float lr),
   ("batch_size", PyVal.int batchSize), ("input_size", PyVal.int inputSize),
   ("hidden_size", PyVal.int hiddenSize), ("momentum", PyVal.float momentum),
   ("weight_decay", PyVal.float weightDecay), ("dropout", PyVal.float dropout),
   ("batch_norm", PyVal.bool batchNorm), ("emb_file", PyVal.str embFile),
   ("label_file", PyVal.str labelFile), ("output_path", PyVal.str outputPath)]

/-- The attribute accesses of one `SnliVECaptionsPrecomp(...)` construction in
`finetune_snli_ve.main` (lines 128-133 and 229-231): `args.emb_file` is read
first, then `args.sim_file`. -/
def loadPrecompPair (ns : PyNamespace) : Except String PyVal :=
  match pyGetattr ns "emb_file" with
  | Except.error e => Except.error e
  | Except.ok _ => pyGetattr ns "sim_file"

/-- Phase A of `finetune_snli_ve.main` (lines 127-133): construct the train and
dev datasets, each reading `args.emb_file` and `args.sim_file`. -/
def ftPhaseA (ns : PyNamespace) : Except String PyVal :=
  match loadPrecompPair ns with
  | Except.error e => Except.error e
  | Except.ok _ => loadPrecompPair ns

/-- Phase B of `finetune_snli_ve.main` (lines 135-141): construct the
classifier, reading `args.input_size`, `args.hidden_size`, `args.dropout` and
`args.batch_norm`. -/
def ftPhaseB (ns : PyNamespace) : Except String PyVal :=
  match pyGetattr ns "input_size" with
  | Except.error e => Except.error e
  | Except.ok _ =>
  match pyGetattr ns "hidden_size" with
  | Except.error e => Except.error e
  | Except.ok _ =>
  match pyGetattr ns "dropout" with
  | Except.error e => Except.error e
  | Except.ok _ => pyGetattr ns "batch_norm"

/-- Pre-loop accesses of `finetune_snli_ve.main` (lines 144-167): the optimizer
reads `args.lr`, `args.weight_decay` and `args.momentum`; each `DataLoader`
reads `args.batch_size`; the epoch range reads `args.epochs`.  Returns the
number of epochs. -/
def ftPhaseC (ns : PyNamespace) : Except String ℕ :=
  match pyGetattr ns "lr" with
  | Except.error e => Except.error e
  | Except.ok _ =>
  match pyGetattr ns "weight_decay" with
  | Except.error e => Except.error e
  | Except.ok _ =>
  match pyGetattr ns "momentum" with
  | Except.error e => Except.error e
  | Except.ok _ =>
  match pyGetattr ns "batch_size" with
  | Except.error e => Except.error e
  | Except.ok _ =>
  match pyGetattr ns "batch_size" with
  | Except.error e => Except.error e
  | Except.ok _ =>
  match pyGetattr ns "epochs" with
  | Except.error e => Except.error e
  | Except.ok v => Except.ok v.toNatD

/-- The behaviour of one epoch of the fine-tuning loop, with the framework
pieces abstracted: the list of per-batch loss values of the train phase, the
list of per-batch loss values of the dev phase, and the model's state dict as
it stands during this epoch's dev phase (training updates the weights; the dev
phase does not). -/
structure EpochData (W : Type) where
  trainBatchLosses : List ℚ
  devBatchLosses : List ℚ
  wts : W

/-- The running state of the epoch loop of `finetune_snli_ve.main`
(lines 161-165): the two loss lists, the best deep-copied state dict, and the
best dev loss so far. -/
structure LoopState (W : Type) where
  trainLosses : List ℚ
  devLosses : List ℚ
  bestWts : W
  bestLoss : ℚ

/-- Initial value of `best_loss` (line 165): the float literal `1e10`. -/
def bestLossInit : ℚ := 10 ^ 10

/-- Average loss of one phase (lines 179-200): `running_loss` accumulates the
per-batch losses and is divided by the number of batches.  (With zero batches
the source would raise `ZeroDivisionError`; in `ℚ` the division yields `0`.) -/
def phaseAvg (batchLosses : List ℚ) : ℚ :=
  batchLosses.foldl (fun a b => a + b) 0 / batchLosses.length

/-- The arithmetic mean, as the specification words it: the sum of the values
divided by their number. -/
def arithMean (ls : List ℚ) : ℚ := ls.sum / ls.length

/-- One iteration of the epoch loop (lines 168-212): append the train-phase
average loss to `train_losses`, append the dev-phase average loss to
`dev_losses`, and when the dev average is strictly below `best_loss`, record it
and deep-copy the current state dict into `best_model_wts`. -/
def epochStep {W : Type} (e : EpochData W) (st : LoopState W) : LoopState W :=
  let tl := phaseAvg e.trainBatchLosses
  let dl := phaseAvg e.devBatchLosses
  if dl < st.bestLoss then
    ⟨st.trainLosses ++ [tl], st.devLosses ++ [dl], e.wts, dl⟩
  else
    ⟨st.trainLosses ++ [tl], st.devLosses ++ [dl], st.bestWts, st.bestLoss⟩

/-- The epoch loop of `finetune_snli_ve.main`, folded over the epochs. -/
def runEpochs {W : Type} (st : LoopState W) : List (EpochData W) → LoopState W
  | [] => st
  | e :: rest => runEpochs (epochStep e st) rest

/-- The state before the first epoch (lines 161-165): empty loss lists, a deep
copy of the initial state dict, and `best_loss = 1e10`. -/
def initLoopState {W : Type} (w : W) : LoopState W := ⟨[], [], w, bestLossInit⟩

/-- The full epoch loop, from the initial state. -/
def ftTrainLoop {W : Type} (init : W) (eps : List (EpochData W)) : LoopState W :=
  runEpochs (initLoopState init) eps

/-- The weights saved to the output `.pth` file (lines 214-215): the best
state dict is loaded back into the model and the model's state dict is saved. -/
def savedWeights {W : Type} (init : W) (eps : List (EpochData W)) : W :=
  (ftTrainLoop init eps).bestWts

/-- Batch consumption of the train/dev loop of `finetune_snli_ve.main`
(line 185): `emb, label = current_batch`, a Python 2-tuple unpacking that
raises `ValueError` unless the batch has exactly two components. -/
def trainBatchUnpack {V : Type} (b : List V) : Except String (V × V) :=
  match b with
  | [x, y] => Except.ok (x, y)
  | _ => Except.error "ValueError: unpack"

/-- Batch consumption of `finetune_snli_ve.inference` (line 115):
`emb_1, emb_2, _ = batch`, a Python 3-tuple unpacking that raises `ValueError`
unless the batch has exactly three components. -/
def inferBatchUnpack {V : Type} (b : List V) : Except String (V × V × V) :=
  match b with
  | [x, y, z] => Except.ok (x, y, z)
  | _ => Except.error "ValueError: unpack"

/-- Observable events of a run of `finetune_snli_ve.main`, in program order.
`trainLoopDs` records the dataset the training loop draws from, and `inferOn`
records the dataset an inference pass draws from. -/
inductive FtEv (V : Type) where
  | parseArgs
  | loadData
  | loadModel
  | trainLoopDs (ds : List (List V))
  | epoch (i : ℕ)
  | write (path : String)
  | inferOn (ds : List (List V))

/-- The observable outputs of a completed run of `finetune_snli_ve.main`: the
state dict written to the `.pth` file and the dictionary pickled to
`losses.pickle`. -/
structure FtResult (W : Type) where
  savedWts : W
  pickle : List (String × List ℚ)

/-- Shallow embedding of `finetune_snli_ve.main` (lines 123-249).  Dataset rows
are opaque Python tuples (`List V`); the per-epoch behaviour of the framework
(losses and weight evolution) is the parameter `dyn`; `w0` is the initial state
dict.  Attribute lookups follow the source order; the first failing lookup
terminates the run with its `AttributeError` and the trace collected so far.
The float-formatted learning-rate infix of the output file names is elided. -/
def mainFt {V W : Type} (ns : PyNamespace) (trainD devD testD : List (List V))
    (dyn : ℕ → EpochData W) (w0 : W) : List (FtEv V) × Except String (FtResult W) :=
  match ftPhaseA ns with
  | Except.error e => ([FtEv.parseArgs], Except.error e)
  | Except.ok _ =>
  match ftPhaseB ns with
  | Except.error e => ([FtEv.parseArgs, FtEv.loadData], Except.error e)
  | Except.ok _ =>
  match ftPhaseC ns with
  | Except.error e => ([FtEv.parseArgs, FtEv.loadData, FtEv.loadModel], Except.error e)
  | Except.ok nEpochs =>
    let eps := (List.range nEpochs).map dyn
    let st := ftTrainLoop w0 eps
    let tr0 := [FtEv.parseArgs, FtEv.loadData, FtEv.loadModel, FtEv.trainLoopDs trainD]
                 ++ (List.range nEpochs).map FtEv.epoch
    match pyGetattr ns "output_path" with
    | Except.error e => (tr0, Except.error e)
    | Except.ok op =>
    match pyGetattr ns "lr" with
    | Except.error e => (tr0, Except.error e)
    | Except.ok _ =>
      let tr1 := tr0 ++ [FtEv.write (op.strD ++ "/ft_model_lr.pth")]
      match pyGetattr ns "plot" with
      | Except.error e => (tr1, Except.error e)
      | Except.ok pv =>
        let tr2 := tr1 ++ (if pv.toBoolD then [FtEv.write (op.strD ++ "/training_losses.png")] else [])
        let tr3 := tr2 ++ [FtEv.write (op.strD ++ "/losses.pickle")]
        let res : FtResult W :=
          ⟨savedWeights w0 eps, [("train", st.trainLosses), ("dev", st.devLosses)]⟩
        match pyGetattr ns "eval" with
        | Except.error e => (tr3, Except.error e)
        | Except.ok ev =>
          if ev.toBoolD then
            match loadPrecompPair ns with
            | Except.error e => (tr3, Except.error e)
            | Except.ok _ =>
              (tr3 ++ [FtEv.inferOn trainD, FtEv.inferOn devD, FtEv.inferOn testD],
               Except.ok res)
          else (tr3, Except.ok res)

/-- Is an `Except` a success? -/
def isOkE {α : Type} : Except String α → Bool
  | Except.ok _ => true
  | Except.error _ => false

/-- Concrete namespace used by witnesses: the attributes of
`finetune_snli_ve.parse_args` plus a `sim_file` attribute, so that the
embedded `main` can run to completion. -/
def nsGoodC : PyNamespace :=
  parseArgsFt false true 1 1 1 1 1 0 0 0 false "e" "l" "o" ++ [("sim_file", PyVal.str "s")]

/-- Concrete one-epoch dynamics used by witnesses: train batch losses `[2]`,
dev batch losses `[4]`, state dict `9` during the dev phase. -/
def dynC : ℕ → EpochData ℕ := fun _ => EpochData.mk [2] [4] 9

/-! ### Theorems -/

/-- C3: in `precomp_vsts_emb`, for every processed instance the exported
embedding is selected by modality: for `"img"`, `"cap"`, `"sent"` or `"comp"`
it is exactly the model's single embedding of that name, and for `"cap+img"`,
`"sent+img"` or `"comp+img"` it is the concatenation along dimension 1 of the
named embedding followed by the image embedding, applied identically to both
members of the pair. -/
theorem c3_modality_selection (modality : String) (hmem : modality ∈ validModalities)
    (e1 e2 : EmbDict) :
    branchEmbs modality e1 e2 = (selectEmbSpec modality e1, selectEmbSpec modality e2) := by
  fin_cases hmem <;> rfl

/-- Witness for C3 at the modality `"cap+img"` and concrete embedding
dictionaries. -/
theorem c3_modality_selection_witness :
    branchEmbs "cap+img" (EmbDict.mk [[1]] [[2]] [[3]] [[4]]) (EmbDict.mk [[5]] [[6]] [[7]] [[8]])
      = ([[2, 1]], [[6, 5]]) := by
  rw [c3_modality_selection "cap+img" (by decide) (EmbDict.mk [[1]] [[2]] [[3]] [[4]])
    (EmbDict.mk [[5]] [[6]] [[7]] [[8]])]
  rfl

/-- C9: in `precomp_vsts_emb`, for every run with a model other than
`"univse"` and `"comp"` occurring in the modality, the modality is rewritten to
exactly `"comp+img"` — both when it was `"comp"` and when it was `"comp+img"` —
because the inner condition repeats the outer `"comp"` test; consequently the
plain `"comp"` selection branch is unreachable for those models: no valid
modality choice ever rewrites to `"comp"`. -/
theorem c9_comp_rewrite (model : String) (hm : model ≠ "univse") :
    (rewriteModality model "comp" = "comp+img" ∧
     rewriteModality model "comp+img" = "comp+img") ∧
    ∀ modality ∈ validModalities, rewriteModality model modality ≠ "comp" := by
  have hb : (model == "univse") = false := beq_eq_false_iff_ne.mpr hm
  refine ⟨⟨?_, ?_⟩, ?_⟩
  · simp only [rewriteModality, hb]; decide
  · simp only [rewriteModality, hb]; decide
  · intro modality hmem
    fin_cases hmem <;> (simp only [rewriteModality, hb]; decide)

/-- Witness for C9 at the model `"simp_univse"`. -/
theorem c9_comp_rewrite_witness :
    rewriteModality "simp_univse" "comp" = "comp+img" ∧
    rewriteModality "simp_univse" "comp+img" ≠ "comp" :=
  ⟨(c9_comp_rewrite "simp_univse" (by decide)).1.1,
   (c9_comp_rewrite "simp_univse" (by decide)).2 "comp+img" (by decide)⟩

/-- Running the epoch loop over an appended list composes. -/
theorem runEpochs_append {W : Type} (l1 l2 : List (EpochData W)) :
    ∀ st : LoopState W, runEpochs st (l1 ++ l2) = runEpochs (runEpochs st l1) l2 := by
  induction l1 with
  | nil => intro st; rfl
  | cons e rest ih => intro st; simp only [List.cons_append, runEpochs]; exact ih (epochStep e st)

/-- When no epoch's dev average beats the current best, the best checkpoint and
best loss survive the rest of the loop unchanged. -/
theorem runEpochs_keep {W : Type} (eps : List (EpochData W)) :
    ∀ st : LoopState W, (∀ e ∈ eps, st.bestLoss ≤ phaseAvg e.devBatchLosses) →
      (runEpochs st eps).bestWts = st.bestWts ∧ (runEpochs st eps).bestLoss = st.bestLoss := by
  induction eps with
  | nil => intro st _; exact ⟨rfl, rfl⟩
  | cons e rest ih =>
    intro st h
    have he : st.bestLoss ≤ phaseAvg e.devBatchLosses := h e (List.mem_cons_self e rest)
    have hstep : epochStep e st =
        ⟨st.trainLosses ++ [phaseAvg e.trainBatchLosses],
         st.devLosses ++ [phaseAvg e.devBatchLosses], st.bestWts, st.bestLoss⟩ := by
      simp only [epochStep, if_neg (not_lt.mpr he)]
    have hr := ih (epochStep e st) (by
      intro f hf
      rw [hstep]
      exact h f (List.mem_cons_of_mem e hf))
    rw [hstep] at hr
    simpa only [runEpochs, hstep] using hr

/-- A strict lower bound on the current best loss and on every remaining dev
average stays a strict lower bound on the final best loss. -/
theorem runEpochs_lb {W : Type} (x : ℚ) (eps : List (EpochData W)) :
    ∀ st : LoopState W, (∀ e ∈ eps, x < phaseAvg e.devBatchLosses) →
      x < st.bestLoss → x < (runEpochs st eps).bestLoss := by
  induction eps with
  | nil => intro st _ hx; exact hx
  | cons e rest ih =>
    intro st h hx
    refine ih (epochStep e st) (fun f hf => h f (List.mem_cons_of_mem e hf)) ?_
    by_cases hc : phaseAvg e.devBatchLosses < st.bestLoss
    · simpa only [epochStep, if_pos hc] using h e (List.mem_cons_self e rest)
    · simpa only [epochStep, if_neg hc] using hx

/-- Each epoch appends exactly the two phase averages to the two loss lists. -/
theorem runEpochs_losses {W : Type} (eps : List (EpochData W)) :
    ∀ st : LoopState W,
      (runEpochs st eps).trainLosses
          = st.trainLosses ++ eps.map (fun e => phaseAvg e.trainBatchLosses)
      ∧ (runEpochs st eps).devLosses
          = st.devLosses ++ eps.map (fun e => phaseAvg e.devBatchLosses) := by
  induction eps with
  | nil => intro st; simp [runEpochs]
  | cons e rest ih =>
    intro st
    have h := ih (epochStep e st)
    constructor
    · rw [runEpochs, h.1]
      by_cases hc : phaseAvg e.devBatchLosses < st.bestLoss <;>
        simp [epochStep, hc, List.append_assoc]
    · rw [runEpochs, h.2]
      by_cases hc : phaseAvg e.devBatchLosses < st.bestLoss <;>
        simp [epochStep, hc, List.append_assoc]

/-- C1: the fine-tuning loop performs best-checkpoint tracking by validation
loss.  If no dev-phase average loss ever drops below the initial `best_loss`
of `1e10`, the saved weights are the initially captured ones; and whenever an
epoch's dev average is strictly below `1e10`, strictly below every earlier
dev average and at most every later dev average, the weights saved to the
output `.pth` file are the state dict deep-copied at that epoch's dev phase. -/
theorem c1_best_checkpoint {W : Type} (init : W) :
    (∀ eps : List (EpochData W),
       (∀ e ∈ eps, bestLossInit ≤ phaseAvg e.devBatchLosses) →
       savedWeights init eps = init) ∧
    (∀ (pre post : List (EpochData W)) (e : EpochData W),
       phaseAvg e.devBatchLosses < bestLossInit →
       (∀ f ∈ pre, phaseAvg e.devBatchLosses < phaseAvg f.devBatchLosses) →
       (∀ f ∈ post, phaseAvg e.devBatchLosses ≤ phaseAvg f.devBatchLosses) →
       savedWeights init (pre ++ e :: post) = e.wts) := by
  constructor
  · intro eps h
    exact (runEpochs_keep eps (initLoopState init) h).1
  · intro pre post e hlt hpre hpost
    unfold savedWeights ftTrainLoop
    rw [runEpochs_append]
    have hst1 : phaseAvg e.devBatchLosses < (runEpochs (initLoopState init) pre).bestLoss :=
      runEpochs_lb (phaseAvg e.devBatchLosses) pre (initLoopState init) hpre hlt
    have hstep : epochStep e (runEpochs (initLoopState init) pre) =
        ⟨(runEpochs (initLoopState init) pre).trainLosses ++ [phaseAvg e.trainBatchLosses],
         (runEpochs (initLoopState init) pre).devLosses ++ [phaseAvg e.devBatchLosses],
         e.wts, phaseAvg e.devBatchLosses⟩ := by
      simp only [epochStep, if_pos hst1]
    have hkeep := runEpochs_keep post (epochStep e (runEpochs (initLoopState init) pre)) (by
      intro f hf
      rw [hstep]
      exact hpost f hf)
    rw [runEpochs]
    rw [hkeep.1, hstep]

/-- Witness for C1: with natural-number state dicts, a run whose only dev
average equals `1e10` keeps the initial weights `7`, and a run with dev
averages `5, 3, 4` saves the weights `2` captured at the middle epoch. -/
theorem c1_best_checkpoint_witness :
    savedWeights (7 : ℕ) [EpochData.mk [] [10 ^ 10] 1] = 7 ∧
    savedWeights (7 : ℕ)
      ([EpochData.mk [] [5] 1] ++ EpochData.mk [] [3] 2 :: [EpochData.mk [] [4] 3]) = 2 :=
  ⟨(c1_best_checkpoint 7).1 [EpochData.mk [] [10 ^ 10] 1]
     (by intro f hf; fin_cases hf; norm_num [phaseAvg, bestLossInit]),
   (c1_best_checkpoint 7).2 [EpochData.mk [] [5] 1] [EpochData.mk [] [4] 3]
     (EpochData.mk [] [3] 2)
     (by norm_num [phaseAvg, bestLossInit])
     (by intro f hf; fin_cases hf; norm_num [phaseAvg])
     (by intro f hf; fin_cases hf; norm_num [phaseAvg])⟩

/-- If phase A of `finetune_snli_ve.main` succeeded, the test-dataset
construction of the eval phase (the same two attribute reads) succeeds too. -/
theorem loadPrecompPair_ok_of_phaseA {ns : PyNamespace} {a : PyVal}
    (h : ftPhaseA ns = Except.ok a) : ∃ w, loadPrecompPair ns = Except.ok w := by
  cases hp : loadPrecompPair ns with
  | error e => simp [ftPhaseA, hp] at h
  | ok w => exact ⟨w, rfl⟩

/-- Shape of every completed run of `finetune_snli_ve.main`: all attribute
lookups succeeded, and the trace and result are fully determined by the parsed
values, the epoch dynamics and the initial weights. -/
theorem mainFt_ok_shape {V W : Type} (ns : PyNamespace) (tD dD teD : List (List V))
    (dyn : ℕ → EpochData W) (w0 : W)
    (hok : isOkE (mainFt ns tD dD teD dyn w0).2 = true) :
    ∃ (n : ℕ) (op pv ev : PyVal),
      ftPhaseC ns = Except.ok n ∧
      pyGetattr ns "output_path" = Except.ok op ∧
      pyGetattr ns "plot" = Except.ok pv ∧
      pyGetattr ns "eval" = Except.ok ev ∧
      mainFt ns tD dD teD dyn w0 =
        ([FtEv.parseArgs, FtEv.loadData, FtEv.loadModel, FtEv.trainLoopDs tD]
           ++ (List.range n).map FtEv.epoch
           ++ ([FtEv.write (PyVal.strD op ++ "/ft_model_lr.pth")]
               ++ (if PyVal.toBoolD pv then [FtEv.write (PyVal.strD op ++ "/training_losses.png")] else [])
               ++ [FtEv.write (PyVal.strD op ++ "/losses.pickle")]
               ++ (if PyVal.toBoolD ev then [FtEv.inferOn tD, FtEv.inferOn dD, FtEv.inferOn teD] else [])),
         Except.ok ⟨savedWeights w0 ((List.range n).map dyn),
                    [("train", (ftTrainLoop w0 ((List.range n).map dyn)).trainLosses),
                     ("dev", (ftTrainLoop w0 ((List.range n).map dyn)).devLosses)]⟩) := by
  cases hA : ftPhaseA ns with
  | error e => simp [mainFt, hA, isOkE] at hok
  | ok a =>
  cases hB : ftPhaseB ns with
  | error e => simp [mainFt, hA, hB, isOkE] at hok
  | ok b =>
  cases hC : ftPhaseC ns with
  | error e => simp [mainFt, hA, hB, hC, isOkE] at hok
  | ok n =>
  cases hop : pyGetattr ns "output_path" with
  | error e => simp [mainFt, hA, hB, hC, hop, isOkE] at hok
  | ok op =>
  cases hlr : pyGetattr ns "lr" with
  | error e => simp [mainFt, hA, hB, hC, hop, hlr, isOkE] at hok
  | ok lv =>
  cases hpl : pyGetattr ns "plot" with
  | error e => simp [mainFt, hA, hB, hC, hop, hlr, hpl, isOkE] at hok
  | ok pv =>
  cases hev : pyGetattr ns "eval" with
  | error e => simp [mainFt, hA, hB, hC, hop, hlr, hpl, hev, isOkE] at hok
  | ok ev =>
  obtain ⟨pp, hpp⟩ := loadPrecompPair_ok_of_phaseA hA
  refine ⟨n, op, pv, ev, rfl, rfl, rfl, rfl, ?_⟩
  by_cases hevb : PyVal.toBoolD ev = true
  · simp [mainFt, hA, hB, hC, hop, hlr, hpl, hev, hpp, hevb, List.append_assoc]
  · simp [mainFt, hA, hB, hC, hop, hlr, hpl, hev, hevb, List.append_assoc]

/-- C2: for every argument vector accepted by `finetune_snli_ve.parse_args`,
`main` raises `AttributeError` when constructing the training dataset, because
it reads `args.sim_file` while `parse_args` only defines `--label-file` (and
`--emb-file`); the trace stops at argument parsing, so no training step,
checkpoint save, plot or pickle output is ever reached. -/
theorem c2_simfile_attribute_error {V W : Type} (plotFlag evalFlag : Bool)
    (epochs : ℤ) (lr : ℚ) (batchSize inputSize hiddenSize : ℤ)
    (momentum weightDecay dropout : ℚ) (batchNorm : Bool)
    (embFile labelFile outputPath : String)
    (tD dD teD : List (List V)) (dyn : ℕ → EpochData W) (w0 : W) :
    mainFt (parseArgsFt plotFlag evalFlag epochs lr batchSize inputSize hiddenSize
        momentum weightDecay dropout batchNorm embFile labelFile outputPath)
      tD dD teD dyn w0
      = ([FtEv.parseArgs], Except.error "AttributeError: sim_file") := by
  rfl

/-- Explicit form of a completed run of `precomp_vsts_emb.main` for the two
implemented models. -/
theorem mainPre_ok_eq {Img Sent : Type} (args : PreArgs) (ds : List (Inst Img Sent))
    (modelFn : List Img → List Sent → EmbDict) (outDirExists : Bool)
    (h1 : ¬ args.model = "vse++")
    (h2 : args.model = "simp_univse" ∨ args.model = "univse") :
    mainPre args ds modelFn outDirExists =
      ([PreEv.parseArgs, PreEv.loadData, PreEv.loadModel args.model]
         ++ (List.range ((dataLoaderNoShuffle 1 ds).map collate).length).map PreEv.inst
         ++ (if outDirExists then [] else [PreEv.mkdirOut])
         ++ [PreEv.write (args.output_path ++ "/" ++ args.model ++ "_"
               ++ rewriteModality args.model args.modality ++ "_emb_1.npy"),
             PreEv.write (args.output_path ++ "/" ++ args.model ++ "_"
               ++ rewriteModality args.model args.modality ++ "_emb_2.npy"),
             PreEv.write (args.output_path ++ "/sim.npy")],
       Except.ok (precompLoop modelFn (rewriteModality args.model args.modality)
         ((dataLoaderNoShuffle 1 ds).map collate) ([], [], []))) := by
  simp only [mainPre, if_neg h1, if_pos h2]

/-- Batching with batch size `1` yields one singleton batch per dataset
element, in order. -/
theorem chunkList_one {α : Type} (l : List α) : chunkList 1 l = l.map (fun a => [a]) := by
  induction l with
  | nil => simp [chunkList]
  | cons x xs ih =>
    rw [chunkList]
    simp [ih]

/-- The instance loop over singleton batches appends, per dataset instance and
in dataset order, exactly one row to each accumulator. -/
theorem precompLoop_singletons {Img Sent : Type} (modelFn : List Img → List Sent → EmbDict)
    (modality : String) (ds : List (Inst Img Sent)) :
    ∀ acc : Mat × Mat × List ℚ,
      precompLoop modelFn modality ((ds.map (fun i => [i])).map collate) acc
        = (acc.1 ++ ds.map (fun i => row0 (branchEmbs modality
               (modelFn [i.img1] [i.sent1]) (modelFn [i.img2] [i.sent2])).1),
           acc.2.1 ++ ds.map (fun i => row0 (branchEmbs modality
               (modelFn [i.img1] [i.sent1]) (modelFn [i.img2] [i.sent2])).2),
           acc.2.2 ++ ds.map (fun i => i.sim)) := by
  induction ds with
  | nil => intro acc; simp [precompLoop]
  | cons i rest ih =>
    intro acc
    obtain ⟨a1, a2, a3⟩ := acc
    simp only [List.map_cons, precompLoop, collate, List.map_nil, ih, List.headD]
    simp [List.append_assoc]

/-- C10: for every run of `precomp_vsts_emb` with model `"vse++"`, `main`
raises `NotImplementedError` after the dataset is loaded and before any model
is loaded or any output file is written. -/
theorem c10_vsepp_not_implemented {Img Sent : Type} (args : PreArgs)
    (ds : List (Inst Img Sent)) (modelFn : List Img → List Sent → EmbDict)
    (outDirExists : Bool) (h : args.model = "vse++") :
    (mainPre args ds modelFn outDirExists).2 = Except.error "NotImplementedError" ∧
    (mainPre args ds modelFn outDirExists).1 = [PreEv.parseArgs, PreEv.loadData] ∧
    (∀ nm, PreEv.loadModel nm ∉ (mainPre args ds modelFn outDirExists).1) ∧
    (∀ p, PreEv.write p ∉ (mainPre args ds modelFn outDirExists).1) := by
  refine ⟨?_, ?_, ?_, ?_⟩ <;> simp [mainPre, if_pos h]

/-- Witness for C10 at concrete arguments. -/
theorem c10_vsepp_not_implemented_witness :
    (mainPre (PreArgs.mk "vse++" "img" "d" "m" "g" "o" "v")
        ([] : List (Inst ℕ ℕ)) (fun _ _ => EmbDict.mk [] [] [] []) true).2
      = Except.error "NotImplementedError" :=
  (c10_vsepp_not_implemented (PreArgs.mk "vse++" "img" "d" "m" "g" "o" "v")
    [] (fun _ _ => EmbDict.mk [] [] [] []) true rfl).1

/-- A filterMap that never produces a value yields the empty list. -/
theorem filterMap_const_none {α β : Type} (l : List α) :
    List.filterMap (fun _ => (Option.none : Option β)) l = [] := by
  induction l with
  | nil => rfl
  | cons x xs ih => simp [List.filterMap_cons, ih]

/-- C5: in `precomp_vsts_emb`, every batch is unpacked as a 5-tuple
(image, sentence, image, sentence, similarity score); because the `DataLoader`
uses batch size `1` with no shuffling, the batches are the dataset's instances
in order, each instance contributes exactly one entry to each of `embs1`,
`embs2` and `sims`, and the three exported arrays have one row per dataset
instance in dataset order. -/
theorem c5_one_row_per_instance {Img Sent : Type} (args : PreArgs)
    (ds : List (Inst Img Sent)) (modelFn : List Img → List Sent → EmbDict)
    (outDirExists : Bool)
    (h2 : args.model = "simp_univse" ∨ args.model = "univse") :
    dataLoaderNoShuffle 1 ds = ds.map (fun i => [i]) ∧
    (∀ i : Inst Img Sent,
       collate [i] = Batch.mk [i.img1] [i.sent1] [i.img2] [i.sent2] [i.sim]) ∧
    (mainPre args ds modelFn outDirExists).2 = Except.ok
      (ds.map (fun i => row0 (branchEmbs (rewriteModality args.model args.modality)
          (modelFn [i.img1] [i.sent1]) (modelFn [i.img2] [i.sent2])).1),
       ds.map (fun i => row0 (branchEmbs (rewriteModality args.model args.modality)
          (modelFn [i.img1] [i.sent1]) (modelFn [i.img2] [i.sent2])).2),
       ds.map (fun i => i.sim)) ∧
    Except.map (fun out : Mat × Mat × List ℚ => (out.1.length, out.2.1.length, out.2.2.length))
        (mainPre args ds modelFn outDirExists).2
      = Except.ok (ds.length, ds.length, ds.length) := by
  have h1 : ¬ args.model = "vse++" := by
    rcases h2 with h | h <;> simp [h]
  have hdl : dataLoaderNoShuffle 1 ds = ds.map (fun i => [i]) := by
    simpa [dataLoaderNoShuffle] using chunkList_one ds
  have hmain := mainPre_ok_eq args ds modelFn outDirExists h1 h2
  have hloop := precompLoop_singletons modelFn (rewriteModality args.model args.modality) ds
    ([], [], [])
  refine ⟨hdl, fun i => rfl, ?_, ?_⟩
  · rw [hmain]
    simp only [hdl, hloop]
    simp
  · rw [hmain]
    simp only [hdl, hloop]
    simp [Except.map]

/-- Witness for C5 at a one-instance dataset over natural-number images and
sentences. -/
theorem c5_one_row_per_instance_witness :
    (mainPre (PreArgs.mk "univse" "img" "d" "m" "g" "o" "v")
        [Inst.mk (5 : ℕ) (6 : ℕ) 7 8 (9 : ℚ)]
        (fun imgs _ => EmbDict.mk [imgs.map (fun x => (x : ℚ))] [] [] []) true).2
      = Except.ok ([[(5 : ℚ)]], [[(7 : ℚ)]], [(9 : ℚ)]) := by
  have h := (c5_one_row_per_instance (PreArgs.mk "univse" "img" "d" "m" "g" "o" "v")
    [Inst.mk (5 : ℕ) (6 : ℕ) 7 8 (9 : ℚ)]
    (fun imgs _ => EmbDict.mk [imgs.map (fun x => (x : ℚ))] [] [] []) true
    (Or.inr rfl)).2.2.1
  rw [h]
  rfl

/-- C8: for every run of `precomp_vsts_emb` that completes its instance loop,
exactly three files are written under the output path (created first if it
does not exist): two embedding arrays named from the model name and the final
modality string with suffixes `_emb_1.npy` and `_emb_2.npy`, and the
similarity array as `sim.npy`. -/
theorem c8_three_output_files {Img Sent : Type} (args : PreArgs)
    (ds : List (Inst Img Sent)) (modelFn : List Img → List Sent → EmbDict)
    (outDirExists : Bool)
    (hok : isOkE (mainPre args ds modelFn outDirExists).2 = true) :
    writePaths (mainPre args ds modelFn outDirExists).1 =
      [args.output_path ++ "/" ++ args.model ++ "_"
         ++ rewriteModality args.model args.modality ++ "_emb_1.npy",
       args.output_path ++ "/" ++ args.model ++ "_"
         ++ rewriteModality args.model args.modality ++ "_emb_2.npy",
       args.output_path ++ "/sim.npy"] ∧
    ∃ p, (mainPre args ds modelFn outDirExists).1
        = p ++ (if outDirExists then [] else [PreEv.mkdirOut])
            ++ [PreEv.write (args.output_path ++ "/" ++ args.model ++ "_"
                  ++ rewriteModality args.model args.modality ++ "_emb_1.npy"),
                PreEv.write (args.output_path ++ "/" ++ args.model ++ "_"
                  ++ rewriteModality args.model args.modality ++ "_emb_2.npy"),
                PreEv.write (args.output_path ++ "/sim.npy")] ∧
          ∀ e ∈ p, e ≠ PreEv.mkdirOut ∧ ∀ q, e ≠ PreEv.write q := by
  by_cases h1 : args.model = "vse++"
  · simp [mainPre, if_pos h1, isOkE] at hok
  by_cases h2 : args.model = "simp_univse" ∨ args.model = "univse"
  · have hmain := mainPre_ok_eq args ds modelFn outDirExists h1 h2
    constructor
    · rw [hmain]
      by_cases hd : outDirExists <;>
        simp [hd, writePaths, List.filterMap_append, List.filterMap_map,
          Function.comp, filterMap_const_none, List.filterMap_cons]
    · refine ⟨[PreEv.parseArgs, PreEv.loadData, PreEv.loadModel args.model]
        ++ (List.range ((dataLoaderNoShuffle 1 ds).map collate).length).map PreEv.inst, ?_, ?_⟩
      · rw [hmain]
      · intro e he
        simp only [List.mem_append, List.mem_cons, List.not_mem_nil, or_false,
          List.mem_map] at he
        rcases he with (rfl | rfl | rfl) | ⟨i, _, rfl⟩ <;>
          exact ⟨by simp, fun q => by simp⟩
  · simp [mainPre, if_neg h1, if_neg h2, isOkE] at hok

/-- Witness for C8 at concrete arguments and the empty dataset. -/
theorem c8_three_output_files_witness :
    writePaths (mainPre (PreArgs.mk "univse" "img" "d" "m" "g" "o" "v")
        ([] : List (Inst ℕ ℕ)) (fun _ _ => EmbDict.mk [] [] [] []) true).1
      = ["o/univse_img_emb_1.npy", "o/univse_img_emb_2.npy", "o/sim.npy"] := by
  have h := (c8_three_output_files (PreArgs.mk "univse" "img" "d" "m" "g" "o" "v")
    ([] : List (Inst ℕ ℕ)) (fun _ _ => EmbDict.mk [] [] [] []) true rfl).1
  rw [h]
  rfl

/-- C4: each script executes its phases in the fixed order — parse arguments,
then load data, then load model, then loop (epochs in `finetune_snli_ve`, once
over instances in `precomp_vsts_emb`), then save outputs — and on every
completed run the events after the loop are only output events, so no output
file is written before the loop completes. -/
theorem c4_phase_order {V W Img Sent : Type} :
    (∀ (ns : PyNamespace) (tD dD teD : List (List V)) (dyn : ℕ → EpochData W) (w0 : W),
       isOkE (mainFt ns tD dD teD dyn w0).2 = true →
       ∃ loopEvs outEvs,
         (mainFt ns tD dD teD dyn w0).1
           = [FtEv.parseArgs, FtEv.loadData, FtEv.loadModel, FtEv.trainLoopDs tD]
               ++ loopEvs ++ outEvs ∧
         (∀ e ∈ loopEvs, ∃ i, e = FtEv.epoch i) ∧
         (∀ e ∈ outEvs, (∃ p, e = FtEv.write p) ∨ ∃ d, e = FtEv.inferOn d)) ∧
    (∀ (args : PreArgs) (ds : List (Inst Img Sent))
       (modelFn : List Img → List Sent → EmbDict) (outDirExists : Bool),
       isOkE (mainPre args ds modelFn outDirExists).2 = true →
       ∃ instEvs outEvs,
         (mainPre args ds modelFn outDirExists).1
           = [PreEv.parseArgs, PreEv.loadData, PreEv.loadModel args.model]
               ++ instEvs ++ outEvs ∧
         (∀ e ∈ instEvs, ∃ i, e = PreEv.inst i) ∧
         (∀ e ∈ outEvs, e = PreEv.mkdirOut ∨ ∃ p, e = PreEv.write p)) := by
  constructor
  · intro ns tD dD teD dyn w0 hok
    obtain ⟨n, op, pv, ev, hC, hop, hpl, hev, heq⟩ := mainFt_ok_shape ns tD dD teD dyn w0 hok
    refine ⟨(List.range n).map FtEv.epoch,
      [FtEv.write (PyVal.strD op ++ "/ft_model_lr.pth")]
        ++ (if PyVal.toBoolD pv then [FtEv.write (PyVal.strD op ++ "/training_losses.png")] else [])
        ++ [FtEv.write (PyVal.strD op ++ "/losses.pickle")]
        ++ (if PyVal.toBoolD ev then [FtEv.inferOn tD, FtEv.inferOn dD, FtEv.inferOn teD] else []),
      ?_, ?_, ?_⟩
    · rw [heq]
    · intro e he
      simp only [List.mem_map] at he
      obtain ⟨i, _, rfl⟩ := he
      exact ⟨i, rfl⟩
    · intro e he
      by_cases hp : PyVal.toBoolD pv = true <;> by_cases hv : PyVal.toBoolD ev = true <;>
        simp [hp, hv] at he <;> aesop
  · intro args ds modelFn outDirExists hok
    by_cases h1 : args.model = "vse++"
    · simp [mainPre, if_pos h1, isOkE] at hok
    by_cases h2 : args.model = "simp_univse" ∨ args.model = "univse"
    · have hmain := mainPre_ok_eq args ds modelFn outDirExists h1 h2
      refine ⟨(List.range ((dataLoaderNoShuffle 1 ds).map collate).length).map PreEv.inst,
        (if outDirExists then [] else [PreEv.mkdirOut])
          ++ [PreEv.write (args.output_path ++ "/" ++ args.model ++ "_"
                ++ rewriteModality args.model args.modality ++ "_emb_1.npy"),
              PreEv.write (args.output_path ++ "/" ++ args.model ++ "_"
                ++ rewriteModality args.model args.modality ++ "_emb_2.npy"),
              PreEv.write (args.output_path ++ "/sim.npy")], ?_, ?_, ?_⟩
      · rw [hmain]
        simp only [List.append_assoc]
      · intro e he
        simp only [List.mem_map] at he
        obtain ⟨i, _, rfl⟩ := he
        exact ⟨i, rfl⟩
      · intro e he
        by_cases hd : outDirExists <;> simp [hd] at he <;> aesop
    · simp [mainPre, if_neg h1, if_neg h2, isOkE] at hok

/-- Witness for C4: both scripts, run to completion on concrete inputs. -/
theorem c4_phase_order_witness :
    (∃ loopEvs outEvs,
       (mainFt nsGoodC ([] : List (List ℕ)) [] [] dynC (5 : ℕ)).1
         = [FtEv.parseArgs, FtEv.loadData, FtEv.loadModel, FtEv.trainLoopDs []]
             ++ loopEvs ++ outEvs ∧
       (∀ e ∈ loopEvs, ∃ i, e = FtEv.epoch i) ∧
       (∀ e ∈ outEvs, (∃ p, e = FtEv.write p) ∨ ∃ d, e = FtEv.inferOn d)) ∧
    (∃ instEvs outEvs,
       (mainPre (PreArgs.mk "univse" "img" "d" "m" "g" "o" "v") ([] : List (Inst ℕ ℕ))
           (fun _ _ => EmbDict.mk [] [] [] []) true).1
         = [PreEv.parseArgs, PreEv.loadData, PreEv.loadModel "univse"]
             ++ instEvs ++ outEvs ∧
       (∀ e ∈ instEvs, ∃ i, e = PreEv.inst i) ∧
       (∀ e ∈ outEvs, e = PreEv.mkdirOut ∨ ∃ p, e = PreEv.write p)) :=
  ⟨(@c4_phase_order ℕ ℕ ℕ ℕ).1 nsGoodC [] [] [] dynC 5 rfl,
   (@c4_phase_order ℕ ℕ ℕ ℕ).2 (PreArgs.mk "univse" "img" "d" "m" "g" "o" "v")
     [] (fun _ _ => EmbDict.mk [] [] [] []) true rfl⟩

/-- C6: in `finetune_snli_ve`, a classification dataset row is consumed either
as a 3-tuple (image embedding, hypothesis embedding, label), as `inference`
does, or as a 2-tuple (embedding, label), as the training/dev loop does, with
no constraint beyond shape compatibility — each unpacking succeeds exactly on
rows of its arity — and on a completed eval run both loops draw from the same
precomputed dataset: the training loop trains on the dataset the first
inference pass then reads. -/
theorem c6_row_consumption {V W : Type} :
    (∀ b : List V, (∃ r, inferBatchUnpack b = Except.ok r) ↔ b.length = 3) ∧
    (∀ b : List V, (∃ r, trainBatchUnpack b = Except.ok r) ↔ b.length = 2) ∧
    (∀ (ns : PyNamespace) (tD dD teD : List (List V)) (dyn : ℕ → EpochData W) (w0 : W)
       (ev : PyVal),
       isOkE (mainFt ns tD dD teD dyn w0).2 = true →
       pyGetattr ns "eval" = Except.ok ev → PyVal.toBoolD ev = true →
       FtEv.trainLoopDs tD ∈ (mainFt ns tD dD teD dyn w0).1 ∧
       FtEv.inferOn tD ∈ (mainFt ns tD dD teD dyn w0).1) := by
  refine ⟨?_, ?_, ?_⟩
  · intro b
    rcases b with _ | ⟨x, _ | ⟨y, _ | ⟨z, _ | ⟨w, t⟩⟩⟩⟩ <;>
      simp [inferBatchUnpack]
  · intro b
    rcases b with _ | ⟨x, _ | ⟨y, _ | ⟨z, t⟩⟩⟩ <;>
      simp [trainBatchUnpack]
  · intro ns tD dD teD dyn w0 ev hok hev hevb
    obtain ⟨n, op, pv, ev', hC, hop, hpl, hev', heq⟩ := mainFt_ok_shape ns tD dD teD dyn w0 hok
    have hee : ev' = ev := by
      rw [hev] at hev'
      exact (Except.ok.injEq _ _).mp hev'.symm
    subst hee
    rw [heq]
    constructor
    · simp
    · simp [hevb]

/-- Witness for C6 on concrete rows and a completed concrete eval run. -/
theorem c6_row_consumption_witness :
    (∃ r, inferBatchUnpack [(1 : ℕ), 2, 3] = Except.ok r) ∧
    (∃ r, trainBatchUnpack [(1 : ℕ), 2] = Except.ok r) ∧
    FtEv.trainLoopDs [[(1 : ℕ)]] ∈ (mainFt nsGoodC [[(1 : ℕ)]] [] [] dynC (5 : ℕ)).1 ∧
    FtEv.inferOn [[(1 : ℕ)]] ∈ (mainFt nsGoodC [[(1 : ℕ)]] [] [] dynC (5 : ℕ)).1 :=
  ⟨((@c6_row_consumption ℕ ℕ).1 [(1 : ℕ), 2, 3]).mpr rfl,
   ((@c6_row_consumption ℕ ℕ).2.1 [(1 : ℕ), 2]).mpr rfl,
   (@c6_row_consumption ℕ ℕ).2.2 nsGoodC [[(1 : ℕ)]] [] [] dynC 5
     (PyVal.bool true) rfl rfl rfl⟩

/-- Folding addition over a list from any seed yields the seed plus the sum. -/
theorem foldl_add_eq_sum (l : List ℚ) : ∀ a : ℚ, l.foldl (fun x y => x + y) a = a + l.sum := by
  induction l with
  | nil => intro a; simp
  | cons x xs ih =>
    intro a
    simp only [List.foldl_cons, ih, List.sum_cons]
    ring

/-- The phase average computed by the source's running-loss accumulation is
exactly the arithmetic mean of the per-batch losses. -/
theorem phaseAvg_eq_arithMean (l : List ℚ) : phaseAvg l = arithMean l := by
  simp [phaseAvg, arithMean, foldl_add_eq_sum]

/-- The epoch count returned by the pre-loop accesses is the value of the
`epochs` attribute. -/
theorem ftPhaseC_epochs_val {ns : PyNamespace} {n : ℕ} (h : ftPhaseC ns = Except.ok n)
    {v : PyVal} (hv : nsLookup ns "epochs" = some v) : n = PyVal.toNatD v := by
  have hep : pyGetattr ns "epochs" = Except.ok v := by simp [pyGetattr, hv]
  cases h1 : pyGetattr ns "lr" with
  | error e => simp [ftPhaseC, h1] at h
  | ok v1 =>
  cases h2 : pyGetattr ns "weight_decay" with
  | error e => simp [ftPhaseC, h1, h2] at h
  | ok v2 =>
  cases h3 : pyGetattr ns "momentum" with
  | error e => simp [ftPhaseC, h1, h2, h3] at h
  | ok v3 =>
  cases h4 : pyGetattr ns "batch_size" with
  | error e => simp [ftPhaseC, h1, h2, h3, h4] at h
  | ok v4 =>
    simp only [ftPhaseC, h1, h2, h3, h4, hep] at h
    exact ((Except.ok.injEq _ _).mp h).symm

/-- C7: after every completed epoch the lists `train_losses` and `dev_losses`
have equal length, namely the number of epochs completed so far; each entry is
the arithmetic mean of the per-batch losses of that epoch's corresponding
phase; and on a completed run the pickled output maps `"train"` and `"dev"` to
these two lists, each of length `args.epochs`. -/
theorem c7_loss_bookkeeping :
    (∀ (W : Type) (init : W) (eps : List (EpochData W)) (k : ℕ), k ≤ eps.length →
       (ftTrainLoop init (eps.take k)).trainLosses.length = k ∧
       (ftTrainLoop init (eps.take k)).devLosses.length = k) ∧
    (∀ (W : Type) (init : W) (eps : List (EpochData W)),
       (ftTrainLoop init eps).trainLosses = eps.map (fun e => arithMean e.trainBatchLosses) ∧
       (ftTrainLoop init eps).devLosses = eps.map (fun e => arithMean e.devBatchLosses)) ∧
    (∀ (V W : Type) (ns : PyNamespace) (tD dD teD : List (List V)) (dyn : ℕ → EpochData W)
       (w0 : W) (E : ℤ),
       nsLookup ns "epochs" = some (PyVal.int E) →
       isOkE (mainFt ns tD dD teD dyn w0).2 = true →
       (mainFt ns tD dD teD dyn w0).2 = Except.ok
         ⟨savedWeights w0 ((List.range E.toNat).map dyn),
          [("train", (ftTrainLoop w0 ((List.range E.toNat).map dyn)).trainLosses),
           ("dev", (ftTrainLoop w0 ((List.range E.toNat).map dyn)).devLosses)]⟩ ∧
       (ftTrainLoop w0 ((List.range E.toNat).map dyn)).trainLosses.length = E.toNat ∧
       (ftTrainLoop w0 ((List.range E.toNat).map dyn)).devLosses.length = E.toNat) := by
  have hlosses : ∀ (W : Type) (init : W) (eps : List (EpochData W)),
      (ftTrainLoop init eps).trainLosses = eps.map (fun e => arithMean e.trainBatchLosses) ∧
      (ftTrainLoop init eps).devLosses = eps.map (fun e => arithMean e.devBatchLosses) := by
    intro W init eps
    have h := runEpochs_losses eps (initLoopState init)
    constructor
    · rw [ftTrainLoop, h.1]
      simp [initLoopState, phaseAvg_eq_arithMean]
    · rw [ftTrainLoop, h.2]
      simp [initLoopState, phaseAvg_eq_arithMean]
  refine ⟨?_, hlosses, ?_⟩
  · intro W init eps k hk
    constructor
    · rw [(hlosses W init (eps.take k)).1]
      simp [List.length_take, min_eq_left hk]
    · rw [(hlosses W init (eps.take k)).2]
      simp [List.length_take, min_eq_left hk]
  · intro V W ns tD dD teD dyn w0 E hE hok
    obtain ⟨n, op, pv, ev, hC, hop, hpl, hev, heq⟩ := mainFt_ok_shape ns tD dD teD dyn w0 hok
    have hn : n = E.toNat := ftPhaseC_epochs_val hC hE
    subst hn
    refine ⟨by rw [heq], ?_, ?_⟩
    · rw [(hlosses W w0 ((List.range E.toNat).map dyn)).1]
      simp
    · rw [(hlosses W w0 ((List.range E.toNat).map dyn)).2]
      simp

/-- Witness for C7: a completed one-epoch run with train batch losses `[2]`
and dev batch losses `[4]` pickles the singleton mean lists and saves the
dev-phase state dict `9`. -/
theorem c7_loss_bookkeeping_witness :
    (mainFt nsGoodC ([] : List (List ℕ)) [] [] dynC (5 : ℕ)).2
      = Except.ok ⟨9, [("train", [2]), ("dev", [4])]⟩ := by
  have h := c7_loss_bookkeeping.2.2 ℕ ℕ nsGoodC [] [] [] dynC 5 1 rfl rfl
  rw [h.1]
  norm_num [savedWeights, ftTrainLoop, runEpochs, epochStep, initLoopState, phaseAvg,
    bestLossInit, dynC, List.range_succ]
